import Mathlib

/-!
# Verification of the llm-benchmark run-execution / scoring / aggregation engine

A shallow embedding of the core engine of the `llm-benchmark` repository:

* `packages/core/src/adapters/index.ts` — provider-adapter selection (`getAdapter`);
* `packages/core/src/runs/runService.ts` — `executeRun`, `createRun`, `getRun`;
* `packages/core/src/scoring/scoringService.ts` — `createScoringSession`,
  `scoreResponse`, `getSessionScores`;
* `packages/core/src/results/resultsService.ts` — `computeResults`;
* the blind-scoring pool construction + Fisher–Yates shuffle of
  `apps/web/app/runs/[id]/score/page.tsx` and `apps/tui/src/index.tsx`.

The SQLite store is embedded as a record of lists of rows (one list per
table, in insertion order); `SELECT ... WHERE id = ?` on a primary key
becomes `List.find?`, joins become `filterMap` over the link/score rows,
and inserts append to the corresponding list.  SQL `REAL` columns that
participate in aggregation arithmetic are embedded as `ℚ` (the concrete
values exercised by the claims are all exactly representable, so binary
floating point and rational arithmetic agree on them).  Asynchronous
provider calls are embedded by an explicit outcome oracle: a function
from a (model id, repetition index) slot to the `Except`-value the
adapter's `complete` settled with; `executeRun` persists every slot's
outcome, which is exactly the observable contract of the awaited
`Promise.all` in the source.
-/

/-! ## Data model: table rows (`packages/core/src/db/schema.ts`) -/

/-- A row of the `Models` table. -/
structure ModelRow where
  id : String
  name : String
  provider : String
  modelId : String
  apiKeyEncrypted : String
  createdAt : Nat
  temperature : Option ℚ
  maxTokens : Option Int
  baseUrl : Option String
deriving DecidableEq, Repr

/-- A row of the `Criteria` table. -/
structure CriterionRow where
  id : String
  name : String
  maxScore : ℚ
  weight : ℚ
  createdAt : Nat
deriving DecidableEq, Repr

/-- A row of the `Runs` table. -/
structure RunRow where
  id : String
  prompt : String
  requestsPerModel : Nat
  createdAt : Nat
deriving DecidableEq, Repr

/-- A row of the `Responses` table. -/
structure ResponseRow where
  id : String
  runId : String
  modelId : String
  content : Option String
  tokensUsed : Option Int
  latencyMs : Option Int
  errorMsg : Option String
  createdAt : Nat
deriving DecidableEq, Repr

/-- A row of the `ScoringSessions` table. -/
structure SessionRow where
  id : String
  runId : String
  createdAt : Nat
deriving DecidableEq, Repr

/-- A row of the `Scores` table. -/
structure ScoreRow where
  id : String
  sessionId : String
  responseId : String
  criterionId : String
  score : ℚ
  notes : Option String
  createdAt : Nat
deriving DecidableEq, Repr

/-- The persistent store: every table as a list of rows in insertion order.
`runModels` and `runCriteria` are the snapshot link tables
(`RunModels(run_id, model_id)`, `RunCriteria(run_id, criteria_id)`). -/
structure DB where
  models : List ModelRow
  criteria : List CriterionRow
  runs : List RunRow
  runModels : List (String × String)
  runCriteria : List (String × String)
  responses : List ResponseRow
  sessions : List SessionRow
  scores : List ScoreRow
deriving DecidableEq, Repr

/-! ## Provider adapters (`packages/core/src/adapters/index.ts`, `base.ts`) -/

/-- The three concrete adapter classes of `adapters/index.ts`. -/
inductive AdapterKind where
  | openai
  | anthropic
  | ollama
deriving DecidableEq, Repr

/-- The `CompletionResult` interface of `adapters/base.ts`:
`{content, tokensUsed?, latencyMs?}`. -/
structure CompletionResult where
  content : String
  tokensUsed : Option Int
  latencyMs : Option Int
deriving DecidableEq, Repr

deriving instance DecidableEq for Except

/-- JavaScript's `String.prototype.toLowerCase` restricted to its
character-wise (ASCII) action, which is all the provider-name comparison in
`getAdapter` depends on. -/
def jsToLower (s : String) : String := String.mk (s.data.map Char.toLower)

/-- The function `getAdapter(provider)` of `adapters/index.ts`: switches on
`provider.toLowerCase()` and throws `Unknown provider: ${provider}` on the
default branch. -/
def getAdapter (provider : String) : Except String AdapterKind :=
  if jsToLower provider = "openai" then .ok .openai
  else if jsToLower provider = "anthropic" then .ok .anthropic
  else if jsToLower provider = "ollama" then .ok .ollama
  else .error ("Unknown provider: " ++ provider)

example : getAdapter "OpenAI" = .ok .openai := by decide
example : getAdapter "foo" = .error "Unknown provider: foo" := by decide

/-! ## Run executor (`packages/core/src/runs/runService.ts`) -/

/-- The outcome each dispatched `adapter.complete(prompt, config)` call
eventually settles with, indexed by the (model row id, repetition index)
slot that issued it.  This is the external, nondeterministic part of
`executeRun`; everything `executeRun` does with an outcome is deterministic. -/
def Oracle : Type := String → Nat → Except String CompletionResult

/-- Fresh response ids (`uuidv4()`), one per (model row id, repetition) slot. -/
def IdGen : Type := String → Nat → String

/-- The `SELECT m.* FROM Models m JOIN RunModels rm ON rm.model_id = m.id
WHERE rm.run_id = ?` join: one model row per link row of the run. -/
def runModelsOf (db : DB) (runId : String) : List ModelRow :=
  (db.runModels.filter (fun rm => rm.1 == runId)).filterMap
    (fun rm => db.models.find? (fun m => m.id == rm.2))

/-- The Response row persisted by one slot of `executeRun`: the `try` branch
stores the completion's content with a NULL `error_msg`; the `catch` branch
stores NULL content/tokens/latency with the error's message. -/
def slotResponse (runId modelId : String) (outcome : Except String CompletionResult)
    (id : String) (now : Nat) : ResponseRow :=
  match outcome with
  | .ok result => ⟨id, runId, modelId, some result.content, result.tokensUsed, result.latencyMs, none, now⟩
  | .error msg => ⟨id, runId, modelId, none, none, none, some msg, now⟩

/-- The `requestsPerModel` response rows one model contributes
(the inner `for (let i = 0; i < runRow.requests_per_model; i++)` loop). -/
def modelSlotRows (runRow : RunRow) (m : ModelRow) (oracle : Oracle) (ids : IdGen)
    (now : Nat) : List ResponseRow :=
  (List.range runRow.requestsPerModel).map
    (fun i => slotResponse runRow.id m.id (oracle m.id i) (ids m.id i) now)

/-- The outer per-model loop of `executeRun`: `getAdapter(model.provider)` is
called synchronously for each model, so an unrecognized provider rejects the
whole call; otherwise every slot's settled outcome is persisted.  (Credential
resolution via `getDecryptedApiKey` is wrapped in a swallowing `try/catch` and
only feeds the adapter's config, so it has no observable effect on what is
persisted and is not represented.) -/
def execModels (runRow : RunRow) (oracle : Oracle) (ids : IdGen) (now : Nat) :
    List ModelRow → Except String (List ResponseRow)
  | [] => .ok []
  | m :: rest =>
    match getAdapter m.provider with
    | .error e => .error e
    | .ok _ =>
      match execModels runRow oracle ids now rest with
      | .error e => .error e
      | .ok rs => .ok (modelSlotRows runRow m oracle ids now ++ rs)

/-- The function `executeRun(runId)`: loads the run (throwing `Run ${runId} not found` when
absent), dispatches `requests_per_model` calls per associated model, and
resolves once every call's outcome has been persisted as a Response row. -/
def executeRun (db : DB) (oracle : Oracle) (ids : IdGen) (now : Nat)
    (runId : String) : Except String DB :=
  match db.runs.find? (fun r => r.id == runId) with
  | none => .error ("Run " ++ runId ++ " not found")
  | some runRow =>
    match execModels runRow oracle ids now (runModelsOf db runId) with
    | .error e => .error e
    | .ok newRows => .ok { db with responses := db.responses ++ newRows }

/-- All rows `executeRun` persists across its models, in dispatch order;
`execModels` returns exactly this list whenever it succeeds. -/
def allSlotRows (runRow : RunRow) (oracle : Oracle) (ids : IdGen) (now : Nat) :
    List ModelRow → List ResponseRow
  | [] => []
  | m :: rest => modelSlotRows runRow m oracle ids now ++ allSlotRows runRow oracle ids now rest

/-! ## Scoring session (`packages/core/src/scoring/scoringService.ts`) -/

/-- The input object of `scoreResponse({sessionId, responseId, criterionId,
score, notes?})`. -/
structure ScoreInput where
  sessionId : String
  responseId : String
  criterionId : String
  score : ℚ
  notes : Option String
deriving DecidableEq, Repr

/-- The function `createScoringSession(runId)`: inserts one new session row and returns it. -/
def createScoringSession (db : DB) (runId : String) (id : String) (now : Nat) :
    DB × SessionRow :=
  let row : SessionRow := ⟨id, runId, now⟩
  ({ db with sessions := db.sessions ++ [row] }, row)

/-- The function `scoreResponse(input)`: unconditionally inserts one new Score row (a fresh
`uuidv4()` primary key; no lookup of and no uniqueness check against existing
rows) and returns it. -/
def scoreResponse (db : DB) (input : ScoreInput) (id : String) (now : Nat) :
    DB × ScoreRow :=
  let row : ScoreRow :=
    ⟨id, input.sessionId, input.responseId, input.criterionId, input.score, input.notes, now⟩
  ({ db with scores := db.scores ++ [row] }, row)

/-! ## Results aggregator (`packages/core/src/results/resultsService.ts`) -/

/-- The `ScoreJoinRow` shape of the aggregation query in `computeResults`. -/
structure ScoreJoinRow where
  scoreValue : ℚ
  responseId : String
  modelId : String
  modelName : String
  provider : String
  criterionId : String
  criterionName : String
  maxScore : ℚ
  weight : ℚ
deriving DecidableEq, Repr

/-- The `CriterionScore` entries of a model's `criteriaBreakdown`. -/
structure CriterionScore where
  criterionId : String
  criterionName : String
  weight : ℚ
  maxScore : ℚ
  avgRawScore : ℚ
  avgNormalized : ℚ
  weightedAvg : ℚ
deriving DecidableEq, Repr

/-- The per-response projection attached to a `ModelResult`
(`{responseId, content, tokensUsed?, latencyMs?}`). -/
structure RespOut where
  responseId : String
  content : String
  tokensUsed : Option Int
  latencyMs : Option Int
deriving DecidableEq, Repr

/-- One entry of `rankedModels`. -/
structure ModelResult where
  modelId : String
  modelName : String
  provider : String
  totalScore : ℚ
  criteriaBreakdown : List CriterionScore
  responses : List RespOut
deriving DecidableEq, Repr

/-- The derived `RunResults` report (never persisted). -/
structure RunResults where
  runId : String
  sessionId : String
  prompt : String
  rankedModels : List ModelResult
deriving DecidableEq, Repr

/-- The join of one Score row against the Responses/Models/Criteria tables
under the `sc.session_id = ? AND r.run_id = ?` conditions of the aggregation
query. -/
def joinScore (responses : List ResponseRow) (models : List ModelRow)
    (criteria : List CriterionRow) (runId sessionId : String) (sc : ScoreRow) :
    Option ScoreJoinRow :=
  if sc.sessionId = sessionId then
    match responses.find? (fun r => r.id == sc.responseId) with
    | none => none
    | some r =>
      if r.runId = runId then
        match models.find? (fun m => m.id == r.modelId),
              criteria.find? (fun c => c.id == sc.criterionId) with
        | some m, some cr =>
          some ⟨sc.score, r.id, r.modelId, m.name, m.provider,
                cr.id, cr.name, cr.maxScore, cr.weight⟩
        | _, _ => none
      else none
  else none

/-- The `SELECT ... FROM Scores sc JOIN Responses r JOIN Models m JOIN
Criteria cr WHERE sc.session_id = ? AND r.run_id = ?` query: each Score row of
the session whose response belongs to the run, joined with its response, model
and criterion rows (which are primary-key lookups). -/
def scoreJoinRows (db : DB) (runId sessionId : String) : List ScoreJoinRow :=
  db.scores.filterMap (joinScore db.responses db.models db.criteria runId sessionId)

/-- Distinct elements of a list keeping first occurrences, relative to an
accumulator of already-seen elements. -/
def dedupFirstAux (seen : List String) : List String → List String
  | [] => []
  | x :: xs =>
    if x ∈ seen then dedupFirstAux seen xs
    else x :: dedupFirstAux (x :: seen) xs

/-- Distinct elements of a list keeping first occurrences in encounter order:
the iteration order of a JavaScript `Map`/`Set` keyed by insertion. -/
def dedupFirst (l : List String) : List String := dedupFirstAux [] l

/-- One `criteriaBreakdown` entry: `avgRaw = mean(scores)`,
`avgNormalized = avgRaw * 100 / maxScore`, `weightedAvg = avgNormalized *
weight`, with name/maxScore/weight taken from the first joined row of the
(model, criterion) group, exactly as the accumulation loop installs them. -/
def mkCriterionScore (group : List ScoreJoinRow) (cid : String) : CriterionScore :=
  let vals := group.map (fun r => r.scoreValue)
  let avgRawScore := vals.sum / (vals.length : ℚ)
  let maxScore := (group.head?.elim 0 (fun r => r.maxScore))
  let weight := (group.head?.elim 0 (fun r => r.weight))
  let avgNormalized := avgRawScore * 100 / maxScore
  ⟨cid, (group.head?.elim "" (fun r => r.criterionName)), weight, maxScore,
   avgRawScore, avgNormalized, avgNormalized * weight⟩

/-- The `ModelResult` built for one model id of the grouping map: breakdown
entries in first-encounter criterion order, `totalScore` the sum of their
`weightedAvg`s, and the distinct scored responses re-fetched by id. -/
def mkModelResult (db : DB) (rows : List ScoreJoinRow) (mid : String) : ModelResult :=
  let mrows := rows.filter (fun r => r.modelId == mid)
  let cids := dedupFirst (mrows.map (fun r => r.criterionId))
  let breakdown := cids.map
    (fun cid => mkCriterionScore (mrows.filter (fun r => r.criterionId == cid)) cid)
  let respIds := dedupFirst (mrows.map (fun r => r.responseId))
  let resps := (respIds.filterMap (fun rid => db.responses.find? (fun r => r.id == rid))).map
    (fun r => RespOut.mk r.id (r.content.getD "") r.tokensUsed r.latencyMs)
  ⟨mid, (mrows.head?.elim "" (fun r => r.modelName)),
   (mrows.head?.elim "" (fun r => r.provider)),
   (breakdown.map (fun c => c.weightedAvg)).sum, breakdown, resps⟩

/-- Stable insertion of one `ModelResult` into a list already sorted by
`totalScore` descending (the element is placed before the first entry whose
total does not exceed its own). -/
def insertDesc (x : ModelResult) : List ModelResult → List ModelResult
  | [] => [x]
  | y :: ys => if y.totalScore ≤ x.totalScore then x :: y :: ys else y :: insertDesc x ys

/-- The stable `modelResults.sort((a, b) => b.totalScore - a.totalScore)`. -/
def sortByTotalDesc : List ModelResult → List ModelResult
  | [] => []
  | x :: xs => insertDesc x (sortByTotalDesc xs)

/-- The function `computeResults(runId, sessionId)`: throws `Run ${runId} not found` when
the run is absent; returns the empty report when the aggregation query yields
no rows; otherwise groups by model (then criterion) in encounter order,
applies the scoring formula, and sorts by `totalScore` descending. -/
def computeResults (db : DB) (runId sessionId : String) : Except String RunResults :=
  match db.runs.find? (fun r => r.id == runId) with
  | none => .error ("Run " ++ runId ++ " not found")
  | some runRow =>
    let rows := scoreJoinRows db runId sessionId
    if rows.isEmpty then
      .ok ⟨runId, sessionId, runRow.prompt, []⟩
    else
      let mids := dedupFirst (rows.map (fun r => r.modelId))
      .ok ⟨runId, sessionId, runRow.prompt,
           sortByTotalDesc (mids.map (mkModelResult db rows))⟩

/-! ## Blind-scoring pool and shuffle
(`apps/web/app/runs/[id]/score/page.tsx`, `apps/tui/src/index.tsx`) -/

/-- JavaScript truthiness of a nullable string is false exactly for `null`
and for the empty string, so `!r.errorMsg` keeps a response when its
`errorMsg` is `null` *or* `""`. -/
def jsFalsyStr : Option String → Bool
  | none => true
  | some s => s == ""

/-- The accessor `getRun(runId).responses`: the run's Response rows. -/
def runResponses (db : DB) (runId : String) : List ResponseRow :=
  db.responses.filter (fun r => r.runId == runId)

/-- The scoreable pool both UIs build before shuffling:
`responses.filter((r) => !r.errorMsg)`. -/
def scoreablePool (db : DB) (runId : String) : List ResponseRow :=
  (runResponses db runId).filter (fun r => jsFalsyStr r.errorMsg)

/-- Exchange the entries at positions `i` and `j` (the
`[arr[i], arr[j]] = [arr[j], arr[i]]` swap); out-of-range positions leave the
list unchanged. -/
def listSwap (l : List α) (i j : Nat) : List α :=
  match l.get? i, l.get? j with
  | some a, some b => (l.set i b).set j a
  | _, _ => l

/-- The descending Fisher–Yates loop `for (let i = n-1; i > 0; i--)`:
at counter `i+1` the entry at `i+1` is swapped with the randomly chosen
position `j ≤ i+1`; the counter `0` case is the loop exit (`i > 0` fails). -/
def fyGo (rand : Nat → Nat) : Nat → List α → List α
  | 0, l => l
  | i + 1, l => fyGo rand i (listSwap l (i + 1) (min (rand (i + 1)) (i + 1)))

/-- The Fisher–Yates shuffle applied to a copy (`const arr = [...valid]`) of
the pool, with `rand i` standing for `Math.floor(Math.random() * (i + 1))`
(clamped into its documented range). -/
def fisherYates (rand : Nat → Nat) (l : List α) : List α :=
  fyGo rand (l.length - 1) l

example : fisherYates (fun _ => 0) [1, 2, 3] = [2, 3, 1] := by decide
example : listSwap [1, 2, 3] 0 2 = [3, 2, 1] := by decide

/-! ## Concrete fixtures

`benchDB` mirrors the repository's own `seedFullFixture` test fixture
(`results/resultsService.test.ts`): two scored models with criteria
Accuracy (maxScore 10, weight 1) and Clarity (maxScore 5, weight 2), plus a
third associated model whose responses were never scored and a second run
with no associated models. -/

def modelA : ModelRow := ⟨"mA", "ModelA", "openai", "gpt-4o", "encA", 1, none, none, none⟩
def modelB : ModelRow := ⟨"mB", "ModelB", "anthropic", "claude-3-opus", "encB", 2, none, none, none⟩
def modelC : ModelRow := ⟨"mC", "ModelC", "ollama", "llama3", "encC", 3, none, none, none⟩

def critAccuracy : CriterionRow := ⟨"c1", "Accuracy", 10, 1, 4⟩
def critClarity : CriterionRow := ⟨"c2", "Clarity", 5, 2, 5⟩

def run1 : RunRow := ⟨"r1", "Explain recursion", 2, 10⟩
def run0 : RunRow := ⟨"r0", "No models here", 2, 11⟩

def respA1 : ResponseRow := ⟨"a1", "r1", "mA", some "Answer A1", some 10, some 100, none, 20⟩
def respA2 : ResponseRow := ⟨"a2", "r1", "mA", some "Answer A2", some 12, some 110, none, 21⟩
def respB1 : ResponseRow := ⟨"b1", "r1", "mB", some "Answer B1", some 8, some 90, none, 22⟩
def respB2 : ResponseRow := ⟨"b2", "r1", "mB", some "Answer B2", some 9, some 95, none, 23⟩
def respC1 : ResponseRow := ⟨"cr1", "r1", "mC", some "Answer C1", none, none, none, 24⟩

def sess1 : SessionRow := ⟨"s1", "r1", 30⟩

def benchDB : DB where
  models := [modelA, modelB, modelC]
  criteria := [critAccuracy, critClarity]
  runs := [run1, run0]
  runModels := [("r1", "mA"), ("r1", "mB"), ("r1", "mC")]
  runCriteria := [("r1", "c1"), ("r1", "c2")]
  responses := [respA1, respA2, respB1, respB2, respC1]
  sessions := [sess1]
  scores :=
    [⟨"sc1", "s1", "a1", "c1", 8, none, 40⟩,
     ⟨"sc2", "s1", "a1", "c2", 4, none, 41⟩,
     ⟨"sc3", "s1", "a2", "c1", 6, none, 42⟩,
     ⟨"sc4", "s1", "a2", "c2", 3, none, 43⟩,
     ⟨"sc5", "s1", "b1", "c1", 5, none, 44⟩,
     ⟨"sc6", "s1", "b1", "c2", 5, none, 45⟩,
     ⟨"sc7", "s1", "b2", "c1", 7, none, 46⟩,
     ⟨"sc8", "s1", "b2", "c2", 4, none, 47⟩]

/-- The report `computeResults` produces on `benchDB` for run `r1`,
session `s1`. -/
def benchResults : RunResults where
  runId := "r1"
  sessionId := "s1"
  prompt := "Explain recursion"
  rankedModels :=
    [⟨"mB", "ModelB", "anthropic", 240,
      [⟨"c1", "Accuracy", 1, 10, 6, 60, 60⟩,
       ⟨"c2", "Clarity", 2, 5, 9/2, 90, 180⟩],
      [⟨"b1", "Answer B1", some 8, some 90⟩,
       ⟨"b2", "Answer B2", some 9, some 95⟩]⟩,
     ⟨"mA", "ModelA", "openai", 210,
      [⟨"c1", "Accuracy", 1, 10, 7, 70, 70⟩,
       ⟨"c2", "Clarity", 2, 5, 7/2, 70, 140⟩],
      [⟨"a1", "Answer A1", some 10, some 100⟩,
       ⟨"a2", "Answer A2", some 12, some 110⟩]⟩]

unseal Rat.add Rat.mul Rat.inv in
example : computeResults benchDB "r1" "s1" = .ok benchResults := by decide

/-! ## Derived definitions and witness fixtures -/

/-- The raw score values of one (model, criterion) group of the session's
joined score rows: exactly the list the aggregation loop averages over. -/
def groupVals (rows : List ScoreJoinRow) (mid cid : String) : List ℚ :=
  ((rows.filter (fun r => r.modelId == mid)).filter
    (fun r => r.criterionId == cid)).map (fun r => r.scoreValue)

/-- A deterministic stand-in for the per-slot `uuidv4()` calls. -/
def ids0 : IdGen := fun m i => m ++ "-" ++ Nat.repr i

/-- An oracle on which every provider call fails. -/
def o0 : Oracle := fun _ _ => .error "network down"

/-- An oracle on which the first repetition succeeds and later ones fail. -/
def oracleExec : Oracle := fun _ i =>
  if i = 0 then .ok ⟨"hello", some 5, some 10⟩ else .error "boom"

/-- A model whose stored provider name no adapter recognizes (`addModel`
accepts any provider string). -/
def modelF : ModelRow := ⟨"mF", "ModelF", "foo", "foo-1", "encF", 1, none, none, none⟩

def runF : RunRow := ⟨"rf", "Prompt F", 1, 2⟩

/-- A store holding an existing run whose single associated model has the
unrecognized provider `foo`. -/
def dbBad : DB := ⟨[modelF], [], [runF], [("rf", "mF")], [], [], [], []⟩

def runX : RunRow := ⟨"rx", "Prompt X", 2, 3⟩

/-- A store with one run over one openai model, two repetitions, no
responses yet. -/
def dbExec : DB := ⟨[modelA], [], [runX], [("rx", "mA")], [], [], [], []⟩

/-- The two response rows `executeRun` persists on `dbExec` under
`oracleExec` (repetition 0 succeeds, repetition 1 fails). -/
def dbExecAfter : DB :=
  { dbExec with responses := dbExec.responses ++
      [⟨"mA-0", "rx", "mA", some "hello", some 5, some 10, none, 9⟩,
       ⟨"mA-1", "rx", "mA", none, none, none, some "boom", 9⟩] }

/-- The store `benchDB` after executing the model-less run `r0` (no rows added). -/
def dbR0After : DB := { benchDB with responses := benchDB.responses ++ [] }

def respOk8 : ResponseRow := ⟨"p1", "r8", "mA", some "fine", none, none, none, 1⟩

/-- A stored response whose `error_msg` is the empty string: non-null in
SQL/TypeScript terms, yet falsy to the pool filter `!r.errorMsg`. -/
def respEmptyErr : ResponseRow := ⟨"p2", "r8", "mA", none, none, none, some "", 2⟩

def respErr8 : ResponseRow := ⟨"p3", "r8", "mA", none, none, none, some "fail", 3⟩

/-- A store exercising the scoring-pool filter on all three `error_msg`
shapes: null, empty string, non-empty string. -/
def db8 : DB :=
  ⟨[modelA], [], [⟨"r8", "Pool prompt", 1, 0⟩], [("r8", "mA")], [],
   [respOk8, respEmptyErr, respErr8], [], []⟩

/-- The store `benchDB` after scoring response `a1` twice against criterion `c1`
(values 3 then 7) in session `s1` — the duplicate-submission scenario. -/
def db9after : DB :=
  (scoreResponse (scoreResponse benchDB ⟨"s1", "a1", "c1", 3, none⟩ "dup1" 70).1
    ⟨"s1", "a1", "c1", 7, none⟩ "dup2" 71).1

/-! ## List-level lemmas -/

theorem mem_dedupFirstAux {x : String} :
    ∀ (l seen : List String), x ∈ dedupFirstAux seen l ↔ x ∈ l ∧ x ∉ seen := by
  intro l
  induction l with
  | nil => intro seen; simp [dedupFirstAux]
  | cons y ys ih =>
    intro seen
    by_cases hy : y ∈ seen
    · rw [dedupFirstAux, if_pos hy, ih]
      constructor
      · rintro ⟨hmem, hs⟩; exact ⟨List.mem_cons_of_mem _ hmem, hs⟩
      · rintro ⟨hmem, hs⟩
        rcases List.mem_cons.mp hmem with rfl | hmem
        · exact absurd hy hs
        · exact ⟨hmem, hs⟩
    · rw [dedupFirstAux, if_neg hy]
      constructor
      · intro hmem
        rcases List.mem_cons.mp hmem with rfl | hmem
        · exact ⟨List.mem_cons_self _ _, hy⟩
        · rcases (ih (y :: seen)).mp hmem with ⟨h1, h2⟩
          refine ⟨List.mem_cons_of_mem _ h1, fun hs => h2 (List.mem_cons_of_mem _ hs)⟩
      · rintro ⟨hmem, hs⟩
        rcases List.mem_cons.mp hmem with rfl | hmem
        · exact List.mem_cons_self _ _
        · by_cases hxy : x = y
          · subst hxy; exact List.mem_cons_self _ _
          · exact List.mem_cons_of_mem _ ((ih (y :: seen)).mpr
              ⟨hmem, fun hc => (List.mem_cons.mp hc).elim hxy hs⟩)

theorem mem_dedupFirst {x : String} {l : List String} :
    x ∈ dedupFirst l ↔ x ∈ l := by
  rw [dedupFirst, mem_dedupFirstAux]
  simp

theorem insertDesc_perm (x : ModelResult) (l : List ModelResult) :
    (insertDesc x l).Perm (x :: l) := by
  induction l with
  | nil => exact List.Perm.refl _
  | cons y ys ih =>
    rw [insertDesc]
    by_cases h : y.totalScore ≤ x.totalScore
    · rw [if_pos h]
    · rw [if_neg h]
      exact (ih.cons y).trans (List.Perm.swap x y ys)

theorem sortByTotalDesc_perm (l : List ModelResult) : (sortByTotalDesc l).Perm l := by
  induction l with
  | nil => exact List.Perm.refl _
  | cons x xs ih => exact (insertDesc_perm x (sortByTotalDesc xs)).trans (ih.cons x)

theorem insertDesc_pairwise {x : ModelResult} {l : List ModelResult}
    (hl : l.Pairwise (fun a b => b.totalScore ≤ a.totalScore)) :
    (insertDesc x l).Pairwise (fun a b => b.totalScore ≤ a.totalScore) := by
  induction l with
  | nil => simp [insertDesc]
  | cons y ys ih =>
    rw [insertDesc]
    rcases List.pairwise_cons.mp hl with ⟨hy, hys⟩
    by_cases h : y.totalScore ≤ x.totalScore
    · rw [if_pos h]
      refine List.pairwise_cons.mpr ⟨?_, hl⟩
      intro b hb
      rcases List.mem_cons.mp hb with rfl | hb
      · exact h
      · exact le_trans (hy b hb) h
    · rw [if_neg h]
      refine List.pairwise_cons.mpr ⟨?_, ih hys⟩
      intro b hb
      have hb2 : b ∈ x :: ys := (insertDesc_perm x ys).mem_iff.mp hb
      rcases List.mem_cons.mp hb2 with rfl | hb2
      · exact le_of_lt (lt_of_not_le h)
      · exact hy b hb2

theorem sortByTotalDesc_pairwise (l : List ModelResult) :
    (sortByTotalDesc l).Pairwise (fun a b => b.totalScore ≤ a.totalScore) := by
  induction l with
  | nil => simp [sortByTotalDesc]
  | cons x xs ih => exact insertDesc_pairwise ih

/-! ## Executor lemmas -/

theorem execModels_error_iff (runRow : RunRow) (oracle : Oracle) (ids : IdGen)
    (now : Nat) (ms : List ModelRow) :
    (∃ e, execModels runRow oracle ids now ms = .error e) ↔
      ∃ m ∈ ms, ∃ e, getAdapter m.provider = .error e := by
  induction ms with
  | nil => simp [execModels]
  | cons m rest ih =>
    rw [execModels]
    cases hA : getAdapter m.provider with
    | error e =>
      simp only []
      constructor
      · intro _; exact ⟨m, List.mem_cons_self _ _, e, hA⟩
      · intro _; exact ⟨e, rfl⟩
    | ok k =>
      cases hR : execModels runRow oracle ids now rest with
      | error e =>
        simp only []
        constructor
        · intro _
          rcases ih.mp ⟨e, hR⟩ with ⟨m2, hm2, e2, he2⟩
          exact ⟨m2, List.mem_cons_of_mem _ hm2, e2, he2⟩
        · intro _; exact ⟨e, rfl⟩
      | ok rs =>
        simp only []
        constructor
        · rintro ⟨e, he⟩; exact absurd he (by simp)
        · rintro ⟨m2, hm2, e2, he2⟩
          rcases List.mem_cons.mp hm2 with rfl | hm2
          · rw [hA] at he2; exact absurd he2 (by simp)
          · rcases ih.mpr ⟨m2, hm2, e2, he2⟩ with ⟨e3, he3⟩
            rw [he3] at hR; exact absurd hR (by simp)

theorem execModels_ok (runRow : RunRow) (oracle : Oracle) (ids : IdGen) (now : Nat) :
    ∀ (ms : List ModelRow) (rs : List ResponseRow),
      execModels runRow oracle ids now ms = .ok rs →
      rs = allSlotRows runRow oracle ids now ms := by
  intro ms
  induction ms with
  | nil => intro rs h; simp [execModels] at h; simp [allSlotRows, h.symm]
  | cons m rest ih =>
    intro rs h
    rw [execModels] at h
    cases hA : getAdapter m.provider with
    | error e => rw [hA] at h; exact absurd h (by simp)
    | ok k =>
      rw [hA] at h
      cases hR : execModels runRow oracle ids now rest with
      | error e => rw [hR] at h; exact absurd h (by simp)
      | ok rs2 =>
        rw [hR] at h
        have : modelSlotRows runRow m oracle ids now ++ rs2 = rs := by
          simpa using h
        rw [allSlotRows, ← this, ih rs2 hR]

theorem allSlotRows_length (runRow : RunRow) (oracle : Oracle) (ids : IdGen) (now : Nat) :
    ∀ ms : List ModelRow,
      (allSlotRows runRow oracle ids now ms).length = ms.length * runRow.requestsPerModel := by
  intro ms
  induction ms with
  | nil => simp [allSlotRows]
  | cons m rest ih =>
    rw [allSlotRows, List.length_append, ih]
    simp [modelSlotRows, List.length_cons, Nat.succ_mul, Nat.add_comm]

theorem modelSlotRows_length (runRow : RunRow) (m : ModelRow) (oracle : Oracle)
    (ids : IdGen) (now : Nat) :
    (modelSlotRows runRow m oracle ids now).length = runRow.requestsPerModel := by
  simp [modelSlotRows]

theorem mem_allSlotRows {r : ResponseRow} (runRow : RunRow) (oracle : Oracle)
    (ids : IdGen) (now : Nat) :
    ∀ ms : List ModelRow, r ∈ allSlotRows runRow oracle ids now ms →
      ∃ m ∈ ms, ∃ i, r = slotResponse runRow.id m.id (oracle m.id i) (ids m.id i) now := by
  intro ms
  induction ms with
  | nil => intro h; simp [allSlotRows] at h
  | cons m rest ih =>
    intro h
    rw [allSlotRows] at h
    rcases List.mem_append.mp h with h | h
    · rcases List.mem_map.mp h with ⟨i, _, hi⟩
      exact ⟨m, List.mem_cons_self _ _, i, hi.symm⟩
    · rcases ih h with ⟨m2, hm2, i, hi⟩
      exact ⟨m2, List.mem_cons_of_mem _ hm2, i, hi⟩

theorem slotResponse_content_iff_error (runId modelId : String)
    (outcome : Except String CompletionResult) (id : String) (now : Nat) :
    ((slotResponse runId modelId outcome id now).content = none ↔
      (slotResponse runId modelId outcome id now).errorMsg ≠ none) := by
  cases outcome <;> simp [slotResponse]

/-! ## Shuffle lemmas -/

theorem cons_set_perm {α : Type u} :
    ∀ (xs : List α) (k : Nat) (b x : α), xs.get? k = some b →
      (b :: xs.set k x).Perm (x :: xs) := by
  intro xs
  induction xs with
  | nil => intro k b x h; simp at h
  | cons y ys ih =>
    intro k b x h
    cases k with
    | zero =>
      simp only [List.get?] at h
      injection h with h
      cases h
      exact List.Perm.swap x y ys
    | succ k =>
      simp only [List.get?] at h
      have h1 : (b :: y :: ys.set k x).Perm (y :: b :: ys.set k x) :=
        List.Perm.swap y b _
      have h3 : (y :: b :: ys.set k x).Perm (y :: x :: ys) := (ih k b x h).cons y
      exact h1.trans (h3.trans (List.Perm.swap x y ys))

theorem set_set_perm {α : Type u} :
    ∀ (l : List α) (i j : Nat) (a b : α), l.get? i = some a → l.get? j = some b →
      (((l.set i b).set j a)).Perm l := by
  intro l
  induction l with
  | nil => intro i j a b hi hj; simp at hi
  | cons y ys ih =>
    intro i j a b hi hj
    cases i with
    | zero =>
      simp only [List.get?] at hi
      injection hi with hi
      cases hi
      cases j with
      | zero =>
        simp only [List.get?] at hj
        injection hj with hj
        cases hj
        exact List.Perm.refl _
      | succ k =>
        simp only [List.get?] at hj
        exact cons_set_perm ys k b y hj
    | succ m =>
      simp only [List.get?] at hi
      cases j with
      | zero =>
        simp only [List.get?] at hj
        injection hj with hj
        cases hj
        exact cons_set_perm ys m a y hi
      | succ k =>
        exact (ih m k a b hi (by simpa using hj)).cons y

theorem listSwap_perm {α : Type u} (l : List α) (i j : Nat) :
    (listSwap l i j).Perm l := by
  rw [listSwap]
  cases hi : l.get? i with
  | none => exact List.Perm.refl _
  | some a =>
    cases hj : l.get? j with
    | none => exact List.Perm.refl _
    | some b => exact set_set_perm l i j a b hi hj

theorem fyGo_perm {α : Type u} (rand : Nat → Nat) :
    ∀ (n : Nat) (l : List α), (fyGo rand n l).Perm l := by
  intro n
  induction n with
  | zero => intro l; exact List.Perm.refl _
  | succ i ih =>
    intro l
    rw [fyGo]
    exact (ih _).trans (listSwap_perm l (i + 1) (min (rand (i + 1)) (i + 1)))

theorem fisherYates_perm {α : Type u} (rand : Nat → Nat) (l : List α) :
    (fisherYates rand l).Perm l := fyGo_perm rand (l.length - 1) l

/-! ## Aggregator lemmas -/

theorem computeResults_ok_elim (db : DB) (rid sid : String) (res : RunResults)
    (h : computeResults db rid sid = .ok res) :
    ∃ runRow, db.runs.find? (fun r => r.id == rid) = some runRow ∧
      ((scoreJoinRows db rid sid = [] ∧ res = ⟨rid, sid, runRow.prompt, []⟩) ∨
       (scoreJoinRows db rid sid ≠ [] ∧
        res = ⟨rid, sid, runRow.prompt,
          sortByTotalDesc ((dedupFirst ((scoreJoinRows db rid sid).map (fun r => r.modelId))).map
            (mkModelResult db (scoreJoinRows db rid sid)))⟩)) := by
  cases hf : db.runs.find? (fun r => r.id == rid) with
  | none =>
    simp only [computeResults, hf] at h
    exact absurd h (by simp)
  | some runRow =>
    refine ⟨runRow, rfl, ?_⟩
    simp only [computeResults, hf] at h
    by_cases he : (scoreJoinRows db rid sid).isEmpty
    · rw [if_pos he] at h
      left
      exact ⟨List.isEmpty_iff.mp he, (Except.ok.inj h).symm⟩
    · rw [if_neg he] at h
      right
      refine ⟨fun hc => he (by simp [hc]), (Except.ok.inj h).symm⟩

theorem mkModelResult_modelId (db : DB) (rows : List ScoreJoinRow) (mid : String) :
    (mkModelResult db rows mid).modelId = mid := rfl

theorem mkModelResult_total (db : DB) (rows : List ScoreJoinRow) (mid : String) :
    (mkModelResult db rows mid).totalScore =
      ((mkModelResult db rows mid).criteriaBreakdown.map (fun c => c.weightedAvg)).sum := rfl

theorem mkModelResult_breakdown (db : DB) (rows : List ScoreJoinRow) (mid : String) :
    ∀ cs ∈ (mkModelResult db rows mid).criteriaBreakdown,
      cs.avgRawScore = (groupVals rows mid cs.criterionId).sum /
        ((groupVals rows mid cs.criterionId).length : ℚ)
      ∧ cs.avgNormalized = cs.avgRawScore * 100 / cs.maxScore
      ∧ cs.weightedAvg = cs.avgNormalized * cs.weight := by
  intro cs hcs
  rcases List.mem_map.mp hcs with ⟨cid, _, hcid⟩
  subst hcid
  exact ⟨rfl, rfl, rfl⟩

/-! ## Claim theorems -/

/-- C10: `getAdapter` resolves provider names case-insensitively: it returns
the OpenAI, Anthropic or Ollama adapter exactly when the lowercased provider
name is `openai`, `anthropic` or `ollama` respectively, and throws
`Unknown provider: ${provider}` for every other string. -/
theorem getAdapter_cases (p : String) :
    (getAdapter p = .ok .openai ↔ jsToLower p = "openai")
    ∧ (getAdapter p = .ok .anthropic ↔ jsToLower p = "anthropic")
    ∧ (getAdapter p = .ok .ollama ↔ jsToLower p = "ollama")
    ∧ (getAdapter p = .error ("Unknown provider: " ++ p) ↔
        (jsToLower p ≠ "openai" ∧ jsToLower p ≠ "anthropic" ∧ jsToLower p ≠ "ollama")) := by
  rw [getAdapter]
  split_ifs with h1 h2 h3 <;> simp_all

/-- C1 counterexample: on a store whose run `rf` exists but is linked to a
model with the unrecognized provider `foo`, `executeRun` throws
`Unknown provider: foo` — a throw that is not the `run not found` condition,
with the run present. -/
theorem executeRun_unknown_provider_cex :
    executeRun dbBad o0 ids0 0 "rf" = .error "Unknown provider: foo"
    ∧ (dbBad.runs.find? (fun r => r.id == "rf")).isSome = true := by decide

/-- C1 (amended): `executeRun` throws exactly when the run does not exist or
some model associated with the run has a provider name `getAdapter` rejects;
in particular the throw conditions do not depend on the outcome oracle, so an
individual provider-call failure never causes a throw. -/
theorem executeRun_error_iff (db : DB) (oracle : Oracle) (ids : IdGen) (now : Nat)
    (runId : String) :
    (∃ e, executeRun db oracle ids now runId = .error e) ↔
      (db.runs.find? (fun r => r.id == runId) = none ∨
       ∃ m ∈ runModelsOf db runId, ∃ e, getAdapter m.provider = .error e) := by
  cases hf : db.runs.find? (fun r => r.id == runId) with
  | none =>
    simp [executeRun, hf]
  | some runRow =>
    simp only [executeRun, hf]
    constructor
    · rintro ⟨e, he⟩
      cases hm : execModels runRow oracle ids now (runModelsOf db runId) with
      | error e2 =>
        exact Or.inr ((execModels_error_iff runRow oracle ids now _).mp ⟨e2, hm⟩)
      | ok rs => rw [hm] at he; simp at he
    · rintro (h | h)
      · exact absurd h (by simp)
      · rcases (execModels_error_iff runRow oracle ids now _).mpr h with ⟨e, he⟩
        rw [he]
        exact ⟨e, rfl⟩

/-- C1 witness: on a store with no run of id `nope`, `executeRun` throws. -/
theorem executeRun_error_iff_witness :
    ∃ e, executeRun benchDB o0 ids0 0 "nope" = .error e :=
  (executeRun_error_iff benchDB o0 ids0 0 "nope").mpr (Or.inl (by decide))

/-- C2: when `executeRun` completes on an existing run, the responses table
has grown by exactly the per-slot rows of the run's models — one row per
(model, repetition) slot, `requestsPerModel` rows per associated model and
`M × R` rows in total — whatever each individual call's outcome was. -/
theorem executeRun_persists_all_slots (db : DB) (oracle : Oracle) (ids : IdGen)
    (now : Nat) (runId : String) (runRow : RunRow) (db' : DB)
    (hrun : db.runs.find? (fun r => r.id == runId) = some runRow)
    (hex : executeRun db oracle ids now runId = .ok db') :
    db'.responses = db.responses ++ allSlotRows runRow oracle ids now (runModelsOf db runId)
    ∧ (∀ m : ModelRow, (modelSlotRows runRow m oracle ids now).length = runRow.requestsPerModel)
    ∧ db'.responses.length =
        db.responses.length + (runModelsOf db runId).length * runRow.requestsPerModel := by
  simp only [executeRun, hrun] at hex
  cases hm : execModels runRow oracle ids now (runModelsOf db runId) with
  | error e => rw [hm] at hex; simp at hex
  | ok rs =>
    rw [hm] at hex
    simp only [Except.ok.injEq] at hex
    have hrs : rs = allSlotRows runRow oracle ids now (runModelsOf db runId) :=
      execModels_ok runRow oracle ids now _ rs hm
    subst hex
    refine ⟨by rw [hrs], fun m => modelSlotRows_length runRow m oracle ids now, ?_⟩
    simp only [List.length_append, hrs, allSlotRows_length]

/-- C2 witness: executing the model-less run `r0` of `benchDB` completes
having persisted zero responses. -/
theorem executeRun_persists_all_slots_witness :
    runModelsOf benchDB "r0" = []
    ∧ dbR0After.responses.length =
        benchDB.responses.length + (runModelsOf benchDB "r0").length * run0.requestsPerModel :=
  ⟨by decide,
   (executeRun_persists_all_slots benchDB o0 ids0 0 "r0" run0 dbR0After
     (by decide) (by decide)).2.2⟩

/-- C3: every Response row `executeRun` appends satisfies the mutual
exclusivity invariant: its content is NULL exactly when its error message is
non-NULL. -/
theorem executeRun_content_xor_error (db : DB) (oracle : Oracle) (ids : IdGen)
    (now : Nat) (runId : String) (db' : DB)
    (hex : executeRun db oracle ids now runId = .ok db') :
    ∃ newRows, db'.responses = db.responses ++ newRows ∧
      ∀ r ∈ newRows, (r.content = none ↔ r.errorMsg ≠ none) := by
  cases hf : db.runs.find? (fun r => r.id == runId) with
  | none =>
    simp only [executeRun, hf] at hex
    exact absurd hex (by simp)
  | some runRow =>
    simp only [executeRun, hf] at hex
    cases hm : execModels runRow oracle ids now (runModelsOf db runId) with
    | error e => rw [hm] at hex; simp at hex
    | ok rs =>
      rw [hm] at hex
      simp only [Except.ok.injEq] at hex
      subst hex
      refine ⟨rs, rfl, ?_⟩
      intro r hr
      have hrs : rs = allSlotRows runRow oracle ids now (runModelsOf db runId) :=
        execModels_ok runRow oracle ids now _ rs hm
      rw [hrs] at hr
      rcases mem_allSlotRows runRow oracle ids now _ hr with ⟨m, _, i, hi⟩
      rw [hi]
      exact slotResponse_content_iff_error runRow.id m.id (oracle m.id i) (ids m.id i) now

/-- C3 witness: on `dbExec` under `oracleExec` (one success, one failure)
the two appended rows each hold either content or an error message. -/
theorem executeRun_content_xor_error_witness :
    ∃ newRows, dbExecAfter.responses = dbExec.responses ++ newRows ∧
      ∀ r ∈ newRows, (r.content = none ↔ r.errorMsg ≠ none) :=
  executeRun_content_xor_error dbExec oracleExec ids0 9 "rx" dbExecAfter (by decide)

/-- C4: `computeResults` throws exactly when the run does not exist,
regardless of the session id; when the run exists and the session contributes
no joined score rows (no scores at all, or no session of that id), it returns
the run's prompt with an empty ranked list. -/
theorem computeResults_notfound_and_empty (db : DB) (runId sid : String) :
    ((∃ e, computeResults db runId sid = .error e) ↔
      db.runs.find? (fun r => r.id == runId) = none)
    ∧ (∀ runRow, db.runs.find? (fun r => r.id == runId) = some runRow →
        scoreJoinRows db runId sid = [] →
        computeResults db runId sid = .ok ⟨runId, sid, runRow.prompt, []⟩) := by
  constructor
  · cases hf : db.runs.find? (fun r => r.id == runId) with
    | none =>
      simp [computeResults, hf]
    | some runRow =>
      simp only [computeResults, hf]
      constructor
      · rintro ⟨e, he⟩
        by_cases hemp : (scoreJoinRows db runId sid).isEmpty
        · rw [if_pos hemp] at he; exact absurd he (by simp)
        · rw [if_neg hemp] at he; exact absurd he (by simp)
      · intro h; exact absurd h (by simp)
  · intro runRow hf hemp
    simp only [computeResults, hf]
    rw [if_pos (by simp [hemp])]

/-- C4 witness: on `benchDB`, an unknown run id throws while run `r1` paired
with a session that has no scores yields the empty ranked report. -/
theorem computeResults_notfound_and_empty_witness :
    (∃ e, computeResults benchDB "ghost" "s1" = .error e)
    ∧ computeResults benchDB "r1" "ghost-session" =
        .ok ⟨"r1", "ghost-session", "Explain recursion", []⟩ :=
  ⟨(computeResults_notfound_and_empty benchDB "ghost" "s1").1.mpr (by decide),
   (computeResults_notfound_and_empty benchDB "r1" "ghost-session").2 run1
     (by decide) (by decide)⟩

/-- C5: every ranked model's breakdown entries satisfy the aggregation
formula — `avgRawScore` is the mean of the (model, criterion) group's raw
values, `avgNormalized = avgRawScore * 100 / maxScore`,
`weightedAvg = avgNormalized * weight` — and its `totalScore` is the sum of
`weightedAvg` over its scored criteria. -/
theorem computeResults_formula (db : DB) (rid sid : String) (res : RunResults)
    (h : computeResults db rid sid = .ok res) :
    ∀ mr ∈ res.rankedModels,
      mr.totalScore = (mr.criteriaBreakdown.map (fun c => c.weightedAvg)).sum
      ∧ ∀ cs ∈ mr.criteriaBreakdown,
          cs.avgRawScore = (groupVals (scoreJoinRows db rid sid) mr.modelId cs.criterionId).sum /
            ((groupVals (scoreJoinRows db rid sid) mr.modelId cs.criterionId).length : ℚ)
          ∧ cs.avgNormalized = cs.avgRawScore * 100 / cs.maxScore
          ∧ cs.weightedAvg = cs.avgNormalized * cs.weight := by
  intro mr hmr
  rcases computeResults_ok_elim db rid sid res h with ⟨runRow, _, hcase⟩
  rcases hcase with ⟨_, hres⟩ | ⟨_, hres⟩
  · subst hres; simp at hmr
  · subst hres
    have hmr2 : mr ∈ (dedupFirst ((scoreJoinRows db rid sid).map (fun r => r.modelId))).map
        (mkModelResult db (scoreJoinRows db rid sid)) :=
      (sortByTotalDesc_perm _).mem_iff.mp hmr
    rcases List.mem_map.mp hmr2 with ⟨mid, _, hmk⟩
    subst hmk
    exact ⟨mkModelResult_total db _ mid,
           fun cs hcs => mkModelResult_breakdown db _ mid cs hcs⟩

unseal Rat.add Rat.mul Rat.inv in
/-- C5 witness: on `benchDB` the concrete contract holds — `benchResults`
records Accuracy (maxScore 10, weight 1) over scores {8, 6} as
7.0 / 70.0 / 70.0, Clarity (maxScore 5, weight 2) over {4, 3} as
3.5 / 70.0 / 140.0, and model A's total as 210.0 — and the general formula
instantiates on that report. -/
theorem computeResults_formula_witness :
    (computeResults benchDB "r1" "s1" = .ok benchResults)
    ∧ ∀ mr ∈ benchResults.rankedModels,
        mr.totalScore = (mr.criteriaBreakdown.map (fun c => c.weightedAvg)).sum
        ∧ ∀ cs ∈ mr.criteriaBreakdown,
            cs.avgRawScore =
              (groupVals (scoreJoinRows benchDB "r1" "s1") mr.modelId cs.criterionId).sum /
                ((groupVals (scoreJoinRows benchDB "r1" "s1") mr.modelId cs.criterionId).length : ℚ)
            ∧ cs.avgNormalized = cs.avgRawScore * 100 / cs.maxScore
            ∧ cs.weightedAvg = cs.avgNormalized * cs.weight :=
  ⟨by decide,
   computeResults_formula benchDB "r1" "s1" benchResults (by decide)⟩

/-- C6: the ranked list `computeResults` returns is sorted by `totalScore`
descending — every earlier entry's total is at least every later entry's. -/
theorem computeResults_sorted (db : DB) (rid sid : String) (res : RunResults)
    (h : computeResults db rid sid = .ok res) :
    res.rankedModels.Pairwise (fun a b => b.totalScore ≤ a.totalScore) := by
  rcases computeResults_ok_elim db rid sid res h with ⟨runRow, _, hcase⟩
  rcases hcase with ⟨_, hres⟩ | ⟨_, hres⟩ <;> subst hres
  · simp
  · exact sortByTotalDesc_pairwise _

unseal Rat.add Rat.mul Rat.inv in
/-- C6 witness: on `benchDB`, model B (240.0) is ranked first and model A
(210.0) second, and the list is pairwise descending. -/
theorem computeResults_sorted_witness :
    (benchResults.rankedModels.map (fun mr => (mr.modelId, mr.totalScore)) =
      [("mB", 240), ("mA", 210)])
    ∧ benchResults.rankedModels.Pairwise (fun a b => b.totalScore ≤ a.totalScore) :=
  ⟨by decide, computeResults_sorted benchDB "r1" "s1" benchResults (by decide)⟩

/-- C7: a model id appears among `rankedModels` exactly when at least one
Score row of the session joins to one of that model's responses in the run;
a run model with no scores in the session is absent, not listed at zero. -/
theorem rankedModels_iff_scored (db : DB) (rid sid : String) (res : RunResults)
    (h : computeResults db rid sid = .ok res) (mid : String) :
    mid ∈ res.rankedModels.map (fun mr => mr.modelId) ↔
      mid ∈ (scoreJoinRows db rid sid).map (fun r => r.modelId) := by
  rcases computeResults_ok_elim db rid sid res h with ⟨runRow, _, hcase⟩
  rcases hcase with ⟨hemp, hres⟩ | ⟨hne, hres⟩ <;> subst hres
  · simp [hemp]
  · constructor
    · intro hmem
      rcases List.mem_map.mp hmem with ⟨mr, hmr, hmid⟩
      have hmr2 : mr ∈ (dedupFirst ((scoreJoinRows db rid sid).map (fun r => r.modelId))).map
          (mkModelResult db (scoreJoinRows db rid sid)) :=
        (sortByTotalDesc_perm _).mem_iff.mp hmr
      rcases List.mem_map.mp hmr2 with ⟨mid2, hmid2, hmk⟩
      have hid : mid2 = mid := by rw [← hmid, ← hmk]; rfl
      exact hid ▸ mem_dedupFirst.mp hmid2
    · intro hmem
      refine List.mem_map.mpr ⟨mkModelResult db (scoreJoinRows db rid sid) mid, ?_, rfl⟩
      exact (sortByTotalDesc_perm _).mem_iff.mpr
        (List.mem_map.mpr ⟨mid, mem_dedupFirst.mpr hmem, rfl⟩)

unseal Rat.add Rat.mul Rat.inv in
/-- C7 witness: model C belongs to run `r1` of `benchDB` yet — having no
scores in session `s1` — is absent from the ranked list, while the two scored
models are present. -/
theorem rankedModels_iff_scored_witness :
    (("r1", "mC") ∈ benchDB.runModels
     ∧ "mC" ∉ (scoreJoinRows benchDB "r1" "s1").map (fun r => r.modelId)
     ∧ benchResults.rankedModels.map (fun mr => mr.modelId) = ["mB", "mA"])
    ∧ ("mC" ∈ benchResults.rankedModels.map (fun mr => mr.modelId) ↔
        "mC" ∈ (scoreJoinRows benchDB "r1" "s1").map (fun r => r.modelId)) :=
  ⟨by decide,
   rankedModels_iff_scored benchDB "r1" "s1" benchResults (by decide) "mC"⟩

/-- C8 counterexample: on `db8`, the stored response `respEmptyErr` has the
non-null error message `""`, yet the pool filter `!r.errorMsg` (JavaScript
truthiness) admits it — so the scoring pool is not exactly the responses
whose error message is null. -/
theorem scoreablePool_cex :
    respEmptyErr ∈ scoreablePool db8 "r8"
    ∧ respEmptyErr.errorMsg ≠ none
    ∧ scoreablePool db8 "r8" = [respOk8, respEmptyErr]
    ∧ respErr8 ∉ scoreablePool db8 "r8" := by decide

/-- C8 (amended): the blind-scoring pool is exactly the run's responses whose
error message is JavaScript-falsy — null or the empty string; the Fisher–Yates
shuffle of the pool is a permutation of it (in particular the multiset of
response ids is preserved), for every sequence of random draws; both the pool
and the shuffle are pure functions of the store, leaving every stored row
unchanged. -/
theorem scoreablePool_shuffle_spec (db : DB) (runId : String) (rand : Nat → Nat) :
    ((fisherYates rand (scoreablePool db runId)).Perm (scoreablePool db runId))
    ∧ ((fisherYates rand (scoreablePool db runId)).map (fun r => r.id)).Perm
        ((scoreablePool db runId).map (fun r => r.id))
    ∧ (∀ r : ResponseRow, r ∈ scoreablePool db runId ↔
        (r ∈ db.responses ∧ r.runId = runId ∧
         (r.errorMsg = none ∨ r.errorMsg = some ""))) := by
  refine ⟨fisherYates_perm rand _, (fisherYates_perm rand _).map _, ?_⟩
  intro r
  rw [scoreablePool, runResponses]
  constructor
  · intro h
    rcases List.mem_filter.mp h with ⟨h1, h2⟩
    rcases List.mem_filter.mp h1 with ⟨h3, h4⟩
    refine ⟨h3, by simpa using h4, ?_⟩
    cases he : r.errorMsg with
    | none => exact Or.inl rfl
    | some s =>
      rw [he] at h2
      simp only [jsFalsyStr, beq_iff_eq] at h2
      exact Or.inr (by rw [h2])
  · rintro ⟨h1, h2, h3⟩
    refine List.mem_filter.mpr ⟨List.mem_filter.mpr ⟨h1, by simp [h2]⟩, ?_⟩
    rcases h3 with h3 | h3 <;> simp [jsFalsyStr, h3]

/-- C9: two `scoreResponse` calls with the same (session, response, criterion)
triple insert two distinct Score rows — nothing enforces uniqueness — and,
when the response joins to the run, both raw values land in the session's
(model, criterion) group that `computeResults` averages. -/
theorem scoreResponse_duplicates (db db1 db2 : DB) (s1 s2 : ScoreRow)
    (rid sid respId cid : String) (v1 v2 : ℚ) (n1 n2 : Option String)
    (id1 id2 : String) (t1 t2 : Nat) (resp : ResponseRow) (m : ModelRow)
    (cr : CriterionRow)
    (hid : id1 ≠ id2)
    (h1 : scoreResponse db ⟨sid, respId, cid, v1, n1⟩ id1 t1 = (db1, s1))
    (h2 : scoreResponse db1 ⟨sid, respId, cid, v2, n2⟩ id2 t2 = (db2, s2))
    (hresp : db.responses.find? (fun r => r.id == respId) = some resp)
    (hrid : resp.runId = rid)
    (hm : db.models.find? (fun mm => mm.id == resp.modelId) = some m)
    (hc : db.criteria.find? (fun c => c.id == cid) = some cr) :
    db2.scores = db.scores ++ [s1, s2]
    ∧ s1.id ≠ s2.id
    ∧ s1.sessionId = sid ∧ s1.responseId = respId ∧ s1.criterionId = cid
    ∧ s2.sessionId = sid ∧ s2.responseId = respId ∧ s2.criterionId = cid
    ∧ groupVals (scoreJoinRows db2 rid sid) resp.modelId cid =
        groupVals (scoreJoinRows db rid sid) resp.modelId cid ++ [v1, v2] := by
  simp only [scoreResponse] at h1 h2
  obtain ⟨hdb1, hs1⟩ := Prod.mk.inj h1
  subst hdb1
  subst hs1
  obtain ⟨hdb2, hs2⟩ := Prod.mk.inj h2
  subst hdb2
  subst hs2
  have hcid : cr.id = cid := by
    have := List.find?_some hc
    simpa using this
  have hj1 : joinScore db.responses db.models db.criteria rid sid
      ⟨id1, sid, respId, cid, v1, n1, t1⟩ =
      some ⟨v1, resp.id, resp.modelId, m.name, m.provider,
            cr.id, cr.name, cr.maxScore, cr.weight⟩ := by
    simp [joinScore, hresp, hrid, hm, hc]
  have hj2 : joinScore db.responses db.models db.criteria rid sid
      ⟨id2, sid, respId, cid, v2, n2, t2⟩ =
      some ⟨v2, resp.id, resp.modelId, m.name, m.provider,
            cr.id, cr.name, cr.maxScore, cr.weight⟩ := by
    simp [joinScore, hresp, hrid, hm, hc]
  have hjoin : scoreJoinRows
      { db with scores := (db.scores ++ [⟨id1, sid, respId, cid, v1, n1, t1⟩]) ++
          [⟨id2, sid, respId, cid, v2, n2, t2⟩] } rid sid =
      scoreJoinRows db rid sid ++
        [⟨v1, resp.id, resp.modelId, m.name, m.provider,
          cr.id, cr.name, cr.maxScore, cr.weight⟩,
         ⟨v2, resp.id, resp.modelId, m.name, m.provider,
          cr.id, cr.name, cr.maxScore, cr.weight⟩] := by
    show List.filterMap (joinScore db.responses db.models db.criteria rid sid)
        ((db.scores ++ [⟨id1, sid, respId, cid, v1, n1, t1⟩]) ++
          [⟨id2, sid, respId, cid, v2, n2, t2⟩]) = _
    rw [List.append_assoc, List.filterMap_append]
    simp [List.filterMap_cons, hj1, hj2, scoreJoinRows]
  refine ⟨by simp, by simpa using hid, rfl, rfl, rfl, rfl, rfl, rfl, ?_⟩
  rw [hjoin]
  simp [groupVals, List.filter_append, hcid]

/-- C9 witness: duplicating the (s1, a1, c1) rating on `benchDB` appends two
distinct Score rows, and the (model A, Accuracy) group the aggregator
averages grows from [8, 6] to [8, 6, 3, 7]. -/
theorem scoreResponse_duplicates_witness :
    (groupVals (scoreJoinRows benchDB "r1" "s1") respA1.modelId "c1" = [8, 6])
    ∧ groupVals (scoreJoinRows db9after "r1" "s1") respA1.modelId "c1" =
        groupVals (scoreJoinRows benchDB "r1" "s1") respA1.modelId "c1" ++ [3, 7]
    ∧ db9after.scores = benchDB.scores ++
        [⟨"dup1", "s1", "a1", "c1", 3, none, 70⟩,
         ⟨"dup2", "s1", "a1", "c1", 7, none, 71⟩] :=
  ⟨by decide,
   (scoreResponse_duplicates benchDB _ db9after _ _ "r1" "s1" "a1" "c1" 3 7 none none
     "dup1" "dup2" 70 71 respA1 modelA critAccuracy (by decide) rfl rfl
     (by decide) rfl (by decide) (by decide)).2.2.2.2.2.2.2.2,
   (scoreResponse_duplicates benchDB _ db9after _ _ "r1" "s1" "a1" "c1" 3 7 none none
     "dup1" "dup2" 70 71 respA1 modelA critAccuracy (by decide) rfl rfl
     (by decide) rfl (by decide) (by decide)).1⟩

/-- C8 witness: on `db8` the shuffle of the pool is a permutation of it, and
the null-error response `respOk8` satisfies the pool membership
characterization. -/
theorem scoreablePool_shuffle_spec_witness :
    ((fisherYates (fun _ => 0) (scoreablePool db8 "r8")).Perm (scoreablePool db8 "r8"))
    ∧ (respOk8 ∈ scoreablePool db8 "r8" ↔
        (respOk8 ∈ db8.responses ∧ respOk8.runId = "r8" ∧
         (respOk8.errorMsg = none ∨ respOk8.errorMsg = some ""))) :=
  ⟨(scoreablePool_shuffle_spec db8 "r8" (fun _ => 0)).1,
   (scoreablePool_shuffle_spec db8 "r8" (fun _ => 0)).2.2 respOk8⟩

/-- C10 witness: the mixed-case provider name `OpenAI` selects the OpenAI
adapter and the unknown provider `foo` is rejected with the exact message. -/
theorem getAdapter_cases_witness :
    (getAdapter "OpenAI" = .ok .openai ↔ jsToLower "OpenAI" = "openai")
    ∧ (getAdapter "foo" = .error ("Unknown provider: " ++ "foo") ↔
        (jsToLower "foo" ≠ "openai" ∧ jsToLower "foo" ≠ "anthropic"
          ∧ jsToLower "foo" ≠ "ollama")) :=
  ⟨(getAdapter_cases "OpenAI").1, (getAdapter_cases "foo").2.2.2⟩
